import Mathlib

/-!
Verification model of the simdjson front-end (`src/src/jsonparser.cpp`) and of the
tape-iterator / JSON-Pointer resolver (`src/unnamed/part_000`,
`ParsedJson::iterator`).  Machine integers are modelled as `Nat`/`Int` with
explicit wrap-around where the C++ code can overflow; C++ functions that throw
are modelled as functions returning a result tagged with the thrown exception.
Byte strings are `List Nat`; reading past the end of a buffer yields 0 (the
NUL terminator / zeroed memory model), mirroring `getD`.
-/

namespace Simdjson

/-- Read byte `i` of a C byte buffer: bytes past the end of the allocation are
modelled as 0 (NUL terminator). -/
def getC (p : List Nat) (i : Nat) : Nat := p.getD i 0

/-- Low 56 bits of a tape word hold the payload (`simdjson/common_defs.h`,
value used throughout `part_000`). -/
def JSONVALUEMASK : Nat := 2 ^ 56 - 1

/-- Build a tape word: tag in the high byte, payload in the low 56 bits
(spec section 3). -/
def tapeWord (tag payload : Nat) : Nat := tag * 2 ^ 56 + payload

/-- Status codes.  Modelled from the spec: `simdjson/simdjson.h` is absent from
the sources; spec section 6 lists them as stable consecutive integers starting
at `SUCCESS = 0`. -/
def SUCCESS : Nat := 0

/-- CAPACITY status code (spec section 6). -/
def CAPACITY : Nat := 1

/-- MEMALLOC status code (spec section 6). -/
def MEMALLOC : Nat := 2

/-- TAPE_ERROR status code (spec section 6). -/
def TAPE_ERROR : Nat := 3

/-- DEPTH_ERROR status code (spec section 6). -/
def DEPTH_ERROR : Nat := 4

/-- Document container, restricted to the fields the modelled code reads or
writes: `bytecapacity`/`errorcode` (used by `json_parse_implementation`),
`isvalid` (spec section 4.F: true iff the last parse completed with SUCCESS;
`isValid()` is defined in the absent `parsedjson.h`), the tape, the decoded
string arena, and `depthcapacity`. -/
structure ParsedJson where
  isvalid : Bool
  errorcode : Nat
  bytecapacity : Nat
  depthcapacity : Nat
  tape : List Nat
  strings : List Nat
  deriving DecidableEq, Repr

/-- `json_parse_implementation` from `src/src/jsonparser.cpp` lines 119-160.
Stage 1 (`find_structural_bits`) and Stage 2 (`unified_machine`) are defined
outside the given sources, so they are parameters: each maps the input buffer
and document to a status and an updated document.  The realloc branch copies
the buffer (content unchanged) and can only fail allocation, abstracted by
`allocOk`; `len` is the logical input length parameter. -/
def json_parse_implementation (stage1 stage2 : List Nat → ParsedJson → Nat × ParsedJson)
    (allocOk : Bool) (buf : List Nat) (len : Nat) (pj : ParsedJson)
    (reallocifneeded : Bool) : Nat × ParsedJson :=
  if pj.bytecapacity < len then (CAPACITY, pj)
  else if reallocifneeded && !allocOk then (MEMALLOC, pj)
  else
    let r1 := stage1 buf pj
    if r1.1 ≠ SUCCESS then (r1.1, { r1.2 with errorcode := r1.1 })
    else stage2 buf r1.2

/-- Instruction-set selector result (`simdjson/simddetection.h` enum,
`instruction_set`). -/
inductive InstructionSet where
  | avx2
  | sse4_2
  | neon
  | noneSet
  deriving DecidableEq, Repr

/-- Modelled from the spec: `simdjson/simddetection.h` is absent; the NEON
entry of the detected-extensions word is a single nonzero bit flag. -/
def SIMDExtension_NEON : Nat := 8

/-- The ARM branch of `find_best_supported_implementation`
(`src/src/jsonparser.cpp` lines 26-31): the C++ test is
`if (available_implementations | SIMDExtension_NEON)`, a bitwise OR whose
truthiness is `≠ 0`. -/
def find_best_supported_implementation_arm (available_implementations : Nat) :
    InstructionSet :=
  if available_implementations ||| SIMDExtension_NEON ≠ 0 then InstructionSet.neon
  else InstructionSet.noneSet

/-- Exceptions that can escape the pointer-resolution code: `std::stoi` throws
`std::invalid_argument` when no digit can be parsed and `std::out_of_range`
when the parsed value does not fit in `int`. -/
inductive Exc where
  | invalidArgument
  | outOfRange
  deriving DecidableEq, Repr

/-- Result of a bool-returning C++ member function that may also throw. -/
inductive PResult where
  | ok (b : Bool)
  | thrown (e : Exc)
  deriving DecidableEq, Repr

/-- One scope-stack entry (`scopeindex_t` of `parsedjson.h`, layout visible in
the iterator constructor in `part_000`). -/
structure scopeindex_t where
  start_of_scope : Nat
  scope_type : Nat
  deriving DecidableEq, Repr

/-- Visible state of `ParsedJson::iterator` (fields read and written by
`part_000`): scope depth, tape index, total tape length, current tag, current
tape word, and the scope-stack array `depthindex` (length `depthcapacity`). -/
structure Iter where
  depth : Nat
  location : Nat
  tape_length : Nat
  current_type : Nat
  current_val : Nat
  depthindex : List scopeindex_t
  deriving DecidableEq, Repr

/-- Read tape word `i` (reads of uninitialized tape memory yield 0). -/
def tapeAt (pj : ParsedJson) (i : Nat) : Nat := pj.tape.getD i 0

/-- `is_object()`: current tag is an object open (123 = open-brace byte). -/
def isObject (it : Iter) : Bool := it.current_type = 123

/-- `is_array()`: current tag is an array open (91 = open-bracket byte). -/
def isArray (it : Iter) : Bool := it.current_type = 91

/-- Modelled from the spec: `next()` is defined in the absent `parsedjson.h`.
Spec section 4.G: move to the next sibling within the current scope, false at
the end of the scope.  Sibling stepping follows the tape layout of spec
sections 3 and 8: integer and double nodes occupy two slots, a container open
node's payload is the index one past its matching close (section 8, scenario
1), so a container's next sibling sits at that payload.  A close tag
(125, 93) or the final root tag (114) or running off the tape is the end of
the scope. -/
def next (pj : ParsedJson) (it : Iter) : Bool × Iter :=
  let npos :=
    if it.current_type = 91 ∨ it.current_type = 123 then it.current_val &&& JSONVALUEMASK
    else it.location + (if it.current_type = 100 ∨ it.current_type = 108 then 2 else 1)
  if it.tape_length ≤ npos then (false, it)
  else
    let nv := tapeAt pj npos
    let nt := nv >>> 56
    if nt = 93 ∨ nt = 125 ∨ nt = 114 then (false, it)
    else (true, { it with location := npos, current_val := nv, current_type := nt })

/-- Modelled from the spec: `down()` is defined in the absent `parsedjson.h`.
Spec section 4.G: if the current node is a container open, descend to its
first child (tape slot after the open); returns false if the container is
empty (matching close immediately follows: payload = location + 2, see spec
section 8 scenario 1).  Per the section 4.G invariant the scope stack records
the tape index of the enclosing open being entered. -/
def down (pj : ParsedJson) (it : Iter) : Bool × Iter :=
  if it.tape_length ≤ it.location + 1 then (false, it)
  else if it.current_type = 91 ∨ it.current_type = 123 then
    let npos := it.current_val &&& JSONVALUEMASK
    if npos = it.location + 2 then (false, it)
    else
      let d := it.depth + 1
      let loc := it.location + 1
      let nv := tapeAt pj loc
      (true, ⟨d, loc, it.tape_length, nv >>> 56, nv,
        it.depthindex.set d ⟨it.location, it.current_type⟩⟩)
  else (false, it)

/-- Modelled from the spec: `up()` is defined in the absent `parsedjson.h`.
Spec section 4.G: ascend to the containing scope, false at root (depth 1 is
the root value, established by the constructor in `part_000`); jumps to the
enclosing open recorded in the scope stack. -/
def up (pj : ParsedJson) (it : Iter) : Bool × Iter :=
  if it.depth ≤ 1 then (false, it)
  else
    let loc := (it.depthindex.getD it.depth ⟨0, 0⟩).start_of_scope
    let nv := tapeAt pj loc
    (true, ⟨it.depth - 1, loc, it.tape_length, nv >>> 56, nv, it.depthindex⟩)

/-- Fuel-indexed `while (up());`: each successful `up` lowers `depth` by one,
so fuel `it.depth` always suffices and the fuel bound is never the reason the
loop stops. -/
def rewindFuel (pj : ParsedJson) : Nat → Iter → Iter
  | 0, it => it
  | f + 1, it =>
    let r := up pj it
    if r.1 then rewindFuel pj f r.2 else r.2

/-- Modelled from the spec: `rewind()` is defined in the absent
`parsedjson.h`; spec section 4.H: the pointer is used from the root, so the
iterator ascends until `up()` fails (back at the root value). -/
def rewind (pj : ParsedJson) (it : Iter) : Iter := rewindFuel pj it.depth it

/-- Fuel-indexed `while (next());` (the `-` token: move to the last element).
On a well-formed tape every successful `next` strictly increases `location`
below `tape_length`, so fuel `tape_length` suffices; the fuel bound is a
termination device for corrupt tapes only (where the C++ loop may not
terminate at all). -/
def nextLoop (pj : ParsedJson) : Nat → Iter → Iter
  | 0, it => it
  | f + 1, it =>
    let r := next pj it
    if r.1 then nextLoop pj f r.2 else it

/-- The array-index walk `for (i = 0; i < index; i++) if (!next()) break;`
followed by the `i == index` test: returns whether all `index` steps
succeeded, plus the final state. -/
def advance (pj : ParsedJson) : Nat → Iter → Bool × Iter
  | 0, it => (true, it)
  | k + 1, it =>
    let r := next pj it
    if r.1 then advance pj k r.2 else (false, r.2)

/-- Key comparison of `move_to_key`: `get_string_length() == length &&
memcmp(get_string(), key, length) == 0`.  The arena layout (spec section 3)
is a 4-byte little-endian length at the arena offset stored in the string
node's payload, followed by the decoded bytes. -/
def keyMatches (pj : ParsedJson) (key : List Nat) (it : Iter) : Bool :=
  let off := it.current_val &&& JSONVALUEMASK
  let len := getC pj.strings off + 256 * getC pj.strings (off + 1)
    + 65536 * getC pj.strings (off + 2) + 16777216 * getC pj.strings (off + 3)
  (len == key.length) && ((pj.strings.drop (off + 4)).take key.length == key)

/-- Fuel-indexed key-scan loop of `move_to_key`: at each key node compare,
`next()` to the value, return true on a match, else `next()` to the following
key until the scope ends, then `up()` and report failure.  Each round moves
strictly forward on a well-formed tape, so fuel `tape_length` suffices. -/
def mtkLoop (pj : ParsedJson) (key : List Nat) : Nat → Iter → Bool × Iter
  | 0, it =>
    let r := up pj it
    (false, r.2)
  | f + 1, it =>
    let rightkey := keyMatches pj key it
    let r1 := next pj it
    if rightkey then (true, r1.2)
    else
      let r2 := next pj r1.2
      if r2.1 then mtkLoop pj key f r2.2
      else
        let r3 := up pj r2.2
        (false, r3.2)

/-- Modelled from the spec: `move_to_key(key, length)` is defined in the
absent `parsedjson.h`.  Spec section 4.G: valid only inside an object;
positions the iterator at the value whose key matches byte-exactly, returns
false otherwise (cursor unspecified on failure - here it ascends back after an
exhaustive scan, and a failed `down` on a non-object or empty object leaves
the cursor in place). -/
def move_to_key (pj : ParsedJson) (key : List Nat) (it : Iter) : Bool × Iter :=
  let r := down pj it
  if r.1 then mtkLoop pj key (r.2.tape_length + 1) r.2
  else (false, r.2)

/-- The `InvalidJSON` exception thrown by the iterator constructor
(`throw InvalidJSON();` in `part_000`): default-constructed, it carries no
data from the document. -/
inductive InvalidJSON where
  | mk
  deriving DecidableEq, Repr

/-- `ParsedJson::iterator::iterator(ParsedJson&)` from `part_000` lines 37-63:
throws `InvalidJSON` unless `pj.isValid()`; allocates `depthindex`
(zero-modelled entries), reads the root tape word (must be tag 114 = `r`,
else it throws), stores the total tape length from its payload, and if the
tape has a value after the root word descends to depth 1 on it. -/
def iterCtor (pj : ParsedJson) : Except InvalidJSON Iter :=
  if !pj.isvalid then Except.error InvalidJSON.mk
  else
    let di0 := List.replicate pj.depthcapacity (⟨0, 0⟩ : scopeindex_t)
    let v0 := tapeAt pj 0
    let t0 := v0 >>> 56
    let di1 := di0.set 0 ⟨0, t0⟩
    if t0 = 114 then
      let tl := v0 &&& JSONVALUEMASK
      if 1 < tl then
        let v1 := tapeAt pj 1
        let t1 := v1 >>> 56
        Except.ok ⟨1, 1, tl, t1, v1, di1.set 1 ⟨1, t1⟩⟩
      else Except.ok ⟨0, 1, tl, t0, v0, di1⟩
    else Except.error InvalidJSON.mk

/-- The token-scan loop of `relative_move_to` (`part_000` lines 208-243),
building `key_or_index` from offset 1 until the next `/` (47) or the end of
`length`: in an array context any non-digit returns failure; `~1` (126, 49)
decodes to `/`, `~0` to `~`; a backslash (92) followed by backslash, quote
(34) or a byte at most 0x1F appends that second byte, any other escape fails;
anything else is appended verbatim.  The fuel argument bounds the loop; each
round consumes at least one input position, so fuel `length + 1` (as passed by
`relative_move_to` below) can never run out. -/
def parse_token (arr : Bool) (p : List Nat) (length : Nat) :
    Nat → Nat → List Nat → Option (List Nat × Nat)
  | 0, _, _ => none
  | f + 1, offset, acc =>
    if offset < length then
      let c := getC p offset
      if c = 47 then some (acc, offset)
      else if arr && (c < 48 || 57 < c) then none
      else if c = 126 && getC p (offset + 1) = 49 then
        parse_token arr p length f (offset + 2) (acc ++ [47])
      else if c = 126 && getC p (offset + 1) = 48 then
        parse_token arr p length f (offset + 2) (acc ++ [126])
      else if c = 92 then
        let d := getC p (offset + 1)
        if d = 92 || d = 34 || d ≤ 31 then
          parse_token arr p length f (offset + 2) (acc ++ [d])
        else none
      else parse_token arr p length f (offset + 1) (acc ++ [c])
    else some (acc, offset)

/-- `isspace` of the default C locale, used by `std::stoi`. -/
def isSpaceC (c : Nat) : Bool := c = 32 || (9 ≤ c && c ≤ 13)

/-- Hexadecimal digit value, if any. -/
def hexVal (c : Nat) : Option Nat :=
  if 48 ≤ c ∧ c ≤ 57 then some (c - 48)
  else if 97 ≤ c ∧ c ≤ 102 then some (c - 87)
  else if 65 ≤ c ∧ c ≤ 70 then some (c - 55)
  else none

/-- Greedily consume hexadecimal digits, tracking whether at least one digit
was seen. -/
def takeHex (v : Nat) (got : Bool) : List Nat → Nat × Bool
  | [] => (v, got)
  | c :: r =>
    match hexVal c with
    | some d => takeHex (16 * v + d) true r
    | none => (v, got)

/-- `std::stoi(s, nullptr, 16)`: skip C-locale whitespace, accept one optional
sign, then consume hexadecimal digits; `none` models the
`std::invalid_argument` thrown when no digit is consumed. -/
def stoiHex (s : List Nat) : Option Int :=
  match s.dropWhile isSpaceC with
  | [] => none
  | c :: r =>
    if c = 43 then
      let v := takeHex 0 false r
      if v.2 then some (v.1 : Int) else none
    else if c = 45 then
      let v := takeHex 0 false r
      if v.2 then some (-(v.1 : Int)) else none
    else
      let v := takeHex 0 false (c :: r)
      if v.2 then some (v.1 : Int) else none

/-- The fragment decode step `std::stoi(std::string(&pointer[i+1], 2), nullptr,
16)` of `move_to` (`part_000` line 137): parse exactly the two bytes after the
percent sign. -/
def stoi16_two (c1 c2 : Nat) : Option Int := stoiHex [c1, c2]

/-- Decimal digit value, if any. -/
def decVal (c : Nat) : Option Nat :=
  if 48 ≤ c ∧ c ≤ 57 then some (c - 48) else none

/-- Greedily consume decimal digits, tracking whether at least one was seen. -/
def takeDec (v : Nat) (got : Bool) : List Nat → Nat × Bool
  | [] => (v, got)
  | c :: r =>
    match decVal c with
    | some d => takeDec (10 * v + d) true r
    | none => (v, got)

/-- `uint32_t index = std::stoi(key_or_index);` (`part_000` line 258):
`std::stoi` throws `std::invalid_argument` when no digit can be parsed (the
token can be empty here) and `std::out_of_range` when the value exceeds the
`int` range (32-bit: 2147483647); the `int` result is then converted to
`uint32_t`.  The call site only ever passes tokens made of decimal digits
(checked by the scan loop), for which this model is exactly `std::stoi`. -/
def stoi10 (s : List Nat) : Except Exc Nat :=
  match s.dropWhile isSpaceC with
  | [] => Except.error Exc.invalidArgument
  | c :: r =>
    if c = 43 then
      let v := takeDec 0 false r
      if !v.2 then Except.error Exc.invalidArgument
      else if 2147483647 < v.1 then Except.error Exc.outOfRange
      else Except.ok v.1
    else if c = 45 then
      let v := takeDec 0 false r
      if !v.2 then Except.error Exc.invalidArgument
      else if 2147483648 < v.1 then Except.error Exc.outOfRange
      else Except.ok ((4294967296 - v.1) % 4294967296)
    else
      let v := takeDec 0 false (c :: r)
      if !v.2 then Except.error Exc.invalidArgument
      else if 2147483647 < v.1 then Except.error Exc.outOfRange
      else Except.ok v.1

/-- Truncation of the `int` fragment value to the `char` written into
`new_pointer` (two's-complement byte). -/
def byteOfInt (i : Int) : Nat := (i % 256).toNat

/-- The fragment-conversion loop of `move_to` (`part_000` lines 130-158): for
each byte from index 1 below `length`, a percent sign (37) parses the next two
bytes with `std::stoi` base 16 (an `std::invalid_argument` aborts with
`none` = return false), prepends a backslash when the decoded value equals
backslash, quote, or is at most 0x1F, writes the decoded byte and skips the
two consumed bytes; other bytes are copied.  Each round consumes at least one
position, so fuel `length + 1` can never run out. -/
def fragConvFuel (p : List Nat) (length : Nat) :
    Nat → Nat → List Nat → Option (List Nat)
  | 0, _, acc => some acc
  | f + 1, i, acc =>
    if i < length then
      if getC p i = 37 then
        match stoi16_two (getC p (i + 1)) (getC p (i + 2)) with
        | none => none
        | some frag =>
          let b := byteOfInt frag
          let acc2 := if frag = 92 ∨ frag = 34 ∨ frag ≤ 31 then acc ++ [92, b]
            else acc ++ [b]
          fragConvFuel p length f (i + 3) acc2
      else fragConvFuel p length f (i + 1) (acc ++ [getC p i])
    else some acc

/-- Fragment-to-pointer conversion (`move_to`, `part_000` lines 130-158),
returning the rewritten pointer whose new length is its list length. -/
def fragment_convert (p : List Nat) (length : Nat) : Option (List Nat) :=
  fragConvFuel p length (length + 1) 1 []

/-- `uint32_t` subtraction `length - offset` as performed by the recursive
call of `relative_move_to`; the scan loop can push `offset` one past `length`
(escape consuming the last in-window byte), in which case the unsigned
subtraction wraps. -/
def sub32 (a b : Nat) : Nat := (a + 4294967296 - b) % 4294967296

/-- `ParsedJson::iterator::relative_move_to` (`part_000` lines 186-272),
fuel-indexed.  Each recursive call strictly decreases `length` in every
non-degenerate execution (offset at least 1), so the fuel `length + 1` used by
`relative_move_to` below cannot run out except after the undefined-behavior
wrap of `sub32` (reading past the buffer in C++); the out-of-fuel result
mirrors a failed lookup.  Exceptions from `std::stoi` propagate, carrying the
iterator state current at the throw point. -/
def rmtFuel (pj : ParsedJson) : Nat → List Nat → Nat → Iter → PResult × Iter
  | 0, _, _, it => (PResult.ok false, it)
  | f + 1, p, length, it =>
    if length = 0 then (PResult.ok true, it)
    else if getC p 0 ≠ 47 then (PResult.ok false, it)
    else if isArray it && getC p 1 = 45 then
      if length ≠ 2 then (PResult.ok false, it)
      else
        let r := down pj it
        if r.1 then (PResult.ok true, nextLoop pj r.2.tape_length r.2)
        else (PResult.ok false, r.2)
    else
      match parse_token (isArray it) p length (length + 1) 1 [] with
      | none => (PResult.ok false, it)
      | some (key, offset) =>
        if isObject it then
          let r := move_to_key pj key it
          if r.1 then rmtFuel pj f (p.drop offset) (sub32 length offset) r.2
          else (PResult.ok false, r.2)
        else if isArray it then
          let r := down pj it
          if r.1 then
            match stoi10 key with
            | Except.error e => (PResult.thrown e, r.2)
            | Except.ok index =>
              let a := advance pj index r.2
              if a.1 then rmtFuel pj f (p.drop offset) (sub32 length offset) a.2
              else (PResult.ok false, a.2)
          else (PResult.ok false, r.2)
        else (PResult.ok false, it)

/-- `relative_move_to(pointer, length)` from `part_000` lines 186-272. -/
def relative_move_to (pj : ParsedJson) (p : List Nat) (length : Nat) (it : Iter) :
    PResult × Iter :=
  rmtFuel pj (length + 1) p length it

/-- The snapshot restore of `move_to` (`part_000` lines 173-181): the five
scalar fields are written back from the saved copies; the `depthindex`
restore in the source only restores the array POINTER (`depthindex =
depthindex_s;`), which never changed, so the array contents written during
the failed search are kept. -/
def restoreState (s it : Iter) : Iter :=
  ⟨s.depth, s.location, s.tape_length, s.current_type, s.current_val, it.depthindex⟩

/-- Body of `move_to` after fragment rewriting (`part_000` lines 159-183):
save the scalar state, rewind to the root, run `relative_move_to`; on a false
result restore the saved scalars; exceptions propagate unrestored. -/
def move_to_core (pj : ParsedJson) (p : List Nat) (length : Nat) (it : Iter) :
    PResult × Iter :=
  match relative_move_to pj p length (rewind pj it) with
  | (PResult.ok true, it1) => (PResult.ok true, it1)
  | (PResult.ok false, it1) => (PResult.ok false, restoreState it it1)
  | (PResult.thrown e, it1) => (PResult.thrown e, it1)

/-- `ParsedJson::iterator::move_to(pointer, length)` from `part_000` lines
128-184: a pointer starting with the hash byte (35) is first rewritten by
percent-decoding (an invalid fragment returns false with the state untouched),
then the snapshot/rewind/resolve/restore sequence runs. -/
def move_to (pj : ParsedJson) (p : List Nat) (length : Nat) (it : Iter) :
    PResult × Iter :=
  if getC p 0 = 35 then
    match fragment_convert p length with
    | none => (PResult.ok false, it)
    | some np => move_to_core pj np np.length it
  else move_to_core pj p length it

/-- Token decoding written from the words of the spec (section 4.H) and of
claim C7, for comparison with the scan loop extracted from the source:
within tokens `~1` decodes to `/`, `~0` to `~`; escaped backslash, quote, or
a byte at most 0x1F decode to the second byte; any other escape is invalid;
other bytes (including a `~` not followed by 0 or 1) pass through. -/
def decodeTokenSpec : List Nat → Option (List Nat)
  | [] => some []
  | [c] =>
    if c = 126 then some [126]
    else if c = 92 then none
    else some [c]
  | c :: d :: r =>
    if c = 126 ∧ d = 49 then (decodeTokenSpec r).map (fun t => 47 :: t)
    else if c = 126 ∧ d = 48 then (decodeTokenSpec r).map (fun t => 126 :: t)
    else if c = 92 then
      if d = 92 ∨ d = 34 ∨ d ≤ 31 then (decodeTokenSpec r).map (fun t => d :: t)
      else none
    else (decodeTokenSpec (d :: r)).map (fun t => c :: t)

/-- The iterator built by the constructor, with a dummy fallback for invalid
documents (used only on documents where the constructor succeeds). -/
def iterOf (pj : ParsedJson) : Iter :=
  match iterCtor pj with
  | Except.ok it => it
  | Except.error _ => ⟨0, 0, 0, 0, 0, []⟩

/-- Parsed document for the input `[10,20,30]` (tape layout per spec sections
3 and 8: root word with total length 10, array open with payload one past the
close, integers on two slots, close with payload of the open). -/
def pjArr : ParsedJson :=
  ⟨true, 0, 64, 8,
   [tapeWord 114 10, tapeWord 91 9, tapeWord 108 0, 10, tapeWord 108 0, 20,
    tapeWord 108 0, 30, tapeWord 93 1, tapeWord 114 10], []⟩

/-- Iterator freshly constructed on `pjArr`. -/
def itArr : Iter := iterOf pjArr

/-- Parsed document for the input `[]`. -/
def pjEmptyArr : ParsedJson :=
  ⟨true, 0, 64, 8,
   [tapeWord 114 4, tapeWord 91 3, tapeWord 93 1, tapeWord 114 4], []⟩

/-- Iterator freshly constructed on `pjEmptyArr`. -/
def itEmptyArr : Iter := iterOf pjEmptyArr

/-- Parsed document for `{"a":{"b":1},"c":{"d":2}}`; the arena holds the four
one-byte keys, each as 4-byte length, byte, NUL. -/
def pjObj2 : ParsedJson :=
  ⟨true, 0, 64, 8,
   [tapeWord 114 16, tapeWord 123 15, tapeWord 34 0, tapeWord 123 8,
    tapeWord 34 6, tapeWord 108 0, 1, tapeWord 125 3, tapeWord 34 12,
    tapeWord 123 14, tapeWord 34 18, tapeWord 108 0, 2, tapeWord 125 9,
    tapeWord 125 1, tapeWord 114 16],
   [1, 0, 0, 0, 97, 0, 1, 0, 0, 0, 98, 0, 1, 0, 0, 0, 99, 0, 1, 0, 0, 0, 100, 0]⟩

/-- Iterator on `pjObj2` navigated inside the second nested object: to the
key of value `{"d":2}` via `move_to_key("c", 1)` then `down()`. -/
def itObj2Deep : Iter :=
  (down pjObj2 (move_to_key pjObj2 [99] (iterOf pjObj2)).2).2

/-- Parsed document for `{"x\u0002y":7}`: a key containing the raw control
byte 2 (stored decoded in the arena). -/
def pjXY : ParsedJson :=
  ⟨true, 0, 64, 8,
   [tapeWord 114 7, tapeWord 123 6, tapeWord 34 0, tapeWord 108 0, 7,
    tapeWord 125 1, tapeWord 114 7],
   [3, 0, 0, 0, 120, 2, 121, 0]⟩

/-- Iterator freshly constructed on `pjXY`. -/
def itXY : Iter := iterOf pjXY

end Simdjson

namespace Simdjson

/-- Claim C4: with `pj.bytecapacity < len`, `json_parse_implementation` returns
CAPACITY immediately: the document is returned untouched and the result does
not depend on reallocation, Stage 1 or Stage 2. -/
theorem c4_capacity_short_circuit (stage1 stage2 : List Nat → ParsedJson → Nat × ParsedJson)
    (allocOk : Bool) (buf : List Nat) (len : Nat) (pj : ParsedJson) (realloc : Bool)
    (h : pj.bytecapacity < len) :
    json_parse_implementation stage1 stage2 allocOk buf len pj realloc = (CAPACITY, pj) := by
  simp [json_parse_implementation, h]

/-- Witness for C4 at a concrete input. -/
theorem c4_capacity_short_circuit_witness :
    json_parse_implementation (fun _ pj => (SUCCESS, pj)) (fun _ pj => (TAPE_ERROR, pj))
      true [91, 93] 2 ⟨false, 0, 1, 8, [], []⟩ true = (CAPACITY, ⟨false, 0, 1, 8, [], []⟩) :=
  c4_capacity_short_circuit _ _ _ _ _ _ _ (by decide)

/-- Claim C3: when Stage 1 returns a non-SUCCESS status (and the parse reached
Stage 1: capacity sufficed and any needed reallocation succeeded), the status
is recorded as the document's errorcode and returned, and Stage 2 is never
invoked: the result is identical for every possible Stage 2 function. -/
theorem c3_stage1_error_short_circuit
    (stage1 stage2 stage2' : List Nat → ParsedJson → Nat × ParsedJson)
    (allocOk : Bool) (buf : List Nat) (len : Nat) (pj : ParsedJson) (realloc : Bool)
    (hcap : ¬ pj.bytecapacity < len) (halloc : ¬ (realloc = true ∧ allocOk = false))
    (herr : (stage1 buf pj).1 ≠ SUCCESS) :
    json_parse_implementation stage1 stage2 allocOk buf len pj realloc
        = ((stage1 buf pj).1, { (stage1 buf pj).2 with errorcode := (stage1 buf pj).1 })
      ∧ json_parse_implementation stage1 stage2 allocOk buf len pj realloc
        = json_parse_implementation stage1 stage2' allocOk buf len pj realloc := by
  have hb : (realloc && !allocOk) = false := by
    cases realloc <;> cases allocOk <;> simp_all
  constructor <;> simp [json_parse_implementation, hcap, hb, herr]

/-- Witness for C3 at a concrete input: Stage 1 fails with DEPTH_ERROR; two
different Stage 2 functions give the same result. -/
theorem c3_stage1_error_short_circuit_witness :
    json_parse_implementation (fun _ pj => (DEPTH_ERROR, pj)) (fun _ pj => (SUCCESS, pj))
        true [91, 93] 2 ⟨false, 0, 4, 8, [], []⟩ true
      = (DEPTH_ERROR, ⟨false, DEPTH_ERROR, 4, 8, [], []⟩)
    ∧ json_parse_implementation (fun _ pj => (DEPTH_ERROR, pj)) (fun _ pj => (SUCCESS, pj))
        true [91, 93] 2 ⟨false, 0, 4, 8, [], []⟩ true
      = json_parse_implementation (fun _ pj => (DEPTH_ERROR, pj)) (fun _ pj => (TAPE_ERROR, pj))
        true [91, 93] 2 ⟨false, 0, 4, 8, [], []⟩ true := by
  have h := c3_stage1_error_short_circuit (fun _ pj => (DEPTH_ERROR, pj))
    (fun _ pj => (SUCCESS, pj)) (fun _ pj => (TAPE_ERROR, pj))
    true [91, 93] 2 ⟨false, 0, 4, 8, [], []⟩ true
    (by decide) (by simp) (by decide)
  exact h

/-- Claim C5: on an ARM build the NEON feature test is a bitwise OR against the
nonzero NEON flag, so it is nonzero for every detected-extensions word and
`instruction_set::neon` is always selected. -/
theorem c5_neon_always_selected (available_implementations : Nat) :
    find_best_supported_implementation_arm available_implementations
      = InstructionSet.neon := by
  have h : available_implementations ||| SIMDExtension_NEON ≠ 0 := by
    intro h0
    have h3 : (available_implementations ||| SIMDExtension_NEON).testBit 3 = false := by
      rw [h0]; simp
    rw [Nat.testBit_or] at h3
    simp only [SIMDExtension_NEON] at h3
    rw [Bool.or_eq_false_iff] at h3
    exact absurd h3.2 (by decide)
  simp [find_best_supported_implementation_arm, h]

theorem getC_append (p1 q : List Nat) (k : Nat) :
    getC (p1 ++ q) (p1.length + k) = getC q k := by
  unfold getC
  rw [List.getD_append_right p1 q 0 (p1.length + k) (by omega)]
  congr 1
  omega

theorem rewindFuel_depth (pj : ParsedJson) :
    ∀ (f : Nat) (it : Iter), 1 ≤ it.depth → it.depth ≤ f + 1 →
      (rewindFuel pj f it).depth = 1 := by
  intro f
  induction f with
  | zero =>
    intro it h1 h2
    simp only [rewindFuel]
    omega
  | succ f ih =>
    intro it h1 h2
    by_cases hd : it.depth ≤ 1
    · have hup : up pj it = (false, it) := by simp [up, hd]
      simp only [rewindFuel, hup]
      simp only [if_neg (by simp : ¬((false, it).1 = true))]
      omega
    · have hup : (up pj it).1 = true ∧ (up pj it).2.depth = it.depth - 1 := by
        simp [up, hd]
      simp only [rewindFuel]
      rw [if_pos hup.1]
      have := ih (up pj it).2
      rw [hup.2] at this
      exact this (by omega) (by omega)

theorem rewind_depth (pj : ParsedJson) (it : Iter) (h : 1 ≤ it.depth) :
    (rewind pj it).depth = 1 := by
  unfold rewind
  exact rewindFuel_depth pj it.depth it h (by omega)

/-- Claim C6: `move_to` with the empty pointer (length 0) returns true and
leaves the iterator exactly where a fresh rewind-to-root leaves it (no net
movement relative to a freshly rewound iterator, positioned at the root,
depth 1). -/
theorem c6_empty_pointer_matches_root (pj : ParsedJson) (it : Iter) :
    move_to pj [] 0 it = (PResult.ok true, rewind pj it)
    ∧ (1 ≤ it.depth → (move_to pj [] 0 it).2.depth = 1) := by
  have h : move_to pj [] 0 it = (PResult.ok true, rewind pj it) := rfl
  refine ⟨h, fun hd => ?_⟩
  rw [h]
  exact rewind_depth pj it hd

/-- Witness for C6 on the parsed document `[10,20,30]`. -/
theorem c6_empty_pointer_matches_root_witness :
    move_to pjArr [] 0 itArr = (PResult.ok true, rewind pjArr itArr)
    ∧ (move_to pjArr [] 0 itArr).2.depth = 1 :=
  ⟨(c6_empty_pointer_matches_root pjArr itArr).1,
   (c6_empty_pointer_matches_root pjArr itArr).2 (by decide)⟩

/-- Claim C2, counterexample to "reports the recorded error code": two failed
documents whose recorded error codes differ (TAPE_ERROR vs DEPTH_ERROR)
produce bit-identical construction failures - `throw InvalidJSON()` is
default-constructed and carries no code - so the failure cannot report the
recorded code. -/
theorem c2_error_code_not_reported :
    iterCtor ⟨false, TAPE_ERROR, 64, 8, [], []⟩ = Except.error InvalidJSON.mk
    ∧ iterCtor ⟨false, DEPTH_ERROR, 64, 8, [], []⟩ = Except.error InvalidJSON.mk
    ∧ TAPE_ERROR ≠ DEPTH_ERROR := by
  refine ⟨rfl, rfl, by decide⟩

/-- Claim C2 as amended: for every document whose last parse did not complete
with SUCCESS (`isValid()` false), iterator construction fails by throwing
`InvalidJSON` and no iterator positioned on the tape is produced; the thrown
exception does not carry the recorded error code. -/
theorem c2_ctor_fails_on_invalid (pj : ParsedJson) (h : pj.isvalid = false) :
    iterCtor pj = Except.error InvalidJSON.mk := by
  simp [iterCtor, h]

/-- Witness for C2 on a concrete failed document. -/
theorem c2_ctor_fails_on_invalid_witness :
    iterCtor ⟨false, 3, 64, 8, [tapeWord 114 2, tapeWord 114 2], []⟩
      = Except.error InvalidJSON.mk :=
  c2_ctor_fails_on_invalid _ rfl

/-- Claim C10: the pointer `/99999999999` on the array `[10,20,30]` makes
`std::stoi` throw `std::out_of_range` (the digit-only token exceeds the `int`
range); the exception propagates out of `move_to` and the iterator is NOT
restored to the snapshot (it is left where the failed resolution stopped,
inside the array at depth 2), so the restore-on-failure guarantee does not
cover this path. -/
theorem c10_index_overflow_escapes :
    (move_to pjArr [47, 57, 57, 57, 57, 57, 57, 57, 57, 57, 57, 57] 12 itArr).1
      = PResult.thrown Exc.outOfRange
    ∧ (move_to pjArr [47, 57, 57, 57, 57, 57, 57, 57, 57, 57, 57, 57] 12 itArr).2.depth
      ≠ itArr.depth
    ∧ (move_to pjArr [47, 57, 57, 57, 57, 57, 57, 57, 57, 57, 57, 57] 12 itArr).2.location
      ≠ itArr.location := by
  decide

/-- Claim C1, counterexample: on `{"a":{"b":1},"c":{"d":2}}` with the iterator
parked inside the `"c"` object, the failing lookup `/a/x` returns false and
restores the five scalar fields, but the scope-stack array contents are NOT
restored: the failed search overwrote entry 3 (the enclosing open of the
`"c"` scope) with the open of the `"a"` scope, because `move_to` saves and
restores only the `depthindex` pointer, never the entries. -/
theorem c1_scope_stack_not_restored :
    (move_to pjObj2 [47, 97, 47, 120] 4 itObj2Deep).1 = PResult.ok false
    ∧ (move_to pjObj2 [47, 97, 47, 120] 4 itObj2Deep).2.depth = itObj2Deep.depth
    ∧ (move_to pjObj2 [47, 97, 47, 120] 4 itObj2Deep).2.location = itObj2Deep.location
    ∧ (move_to pjObj2 [47, 97, 47, 120] 4 itObj2Deep).2.tape_length = itObj2Deep.tape_length
    ∧ (move_to pjObj2 [47, 97, 47, 120] 4 itObj2Deep).2.current_type = itObj2Deep.current_type
    ∧ (move_to pjObj2 [47, 97, 47, 120] 4 itObj2Deep).2.current_val = itObj2Deep.current_val
    ∧ (move_to pjObj2 [47, 97, 47, 120] 4 itObj2Deep).2.depthindex ≠ itObj2Deep.depthindex := by
  decide

theorem move_to_core_restore (pj : ParsedJson) (p : List Nat) (length : Nat)
    (it : Iter) (h : (move_to_core pj p length it).1 = PResult.ok false) :
    (move_to_core pj p length it).2.depth = it.depth
    ∧ (move_to_core pj p length it).2.location = it.location
    ∧ (move_to_core pj p length it).2.tape_length = it.tape_length
    ∧ (move_to_core pj p length it).2.current_type = it.current_type
    ∧ (move_to_core pj p length it).2.current_val = it.current_val := by
  unfold move_to_core at h ⊢
  revert h
  rcases hr : relative_move_to pj p length (rewind pj it) with ⟨res, it1⟩
  cases res with
  | thrown e => intro h; simp at h
  | ok b =>
    cases b with
    | true => intro h; simp at h
    | false => intro h; simp [restoreState]

/-- Claim C1 as amended: whenever `move_to` returns false, the five scalar
components of the visible state (depth, location, tape_length, current_type,
current_val) equal their values before the call; the scope-stack array
contents below the restored depth may have been overwritten by the failed
search, since only the array pointer is saved and restored. -/
theorem c1_scalars_restored_on_false (pj : ParsedJson) (p : List Nat) (length : Nat)
    (it : Iter) (h : (move_to pj p length it).1 = PResult.ok false) :
    (move_to pj p length it).2.depth = it.depth
    ∧ (move_to pj p length it).2.location = it.location
    ∧ (move_to pj p length it).2.tape_length = it.tape_length
    ∧ (move_to pj p length it).2.current_type = it.current_type
    ∧ (move_to pj p length it).2.current_val = it.current_val := by
  unfold move_to at h ⊢
  by_cases h35 : getC p 0 = 35
  · rw [if_pos h35] at h ⊢
    revert h
    cases hf : fragment_convert p length with
    | none => intro h; simp
    | some np => intro h; exact move_to_core_restore pj np np.length it h
  · rw [if_neg h35] at h ⊢
    exact move_to_core_restore pj p length it h

theorem parse_token_arr_nondigit (p : List Nat) (length : Nat) :
    ∀ (f o k : Nat) (acc : List Nat), o ≤ k → k < length → k - o < f →
      (∀ j, o ≤ j → j < k → 48 ≤ getC p j ∧ getC p j ≤ 57) →
      ¬(48 ≤ getC p k ∧ getC p k ≤ 57) → getC p k ≠ 47 →
      parse_token true p length f o acc = none := by
  intro f
  induction f with
  | zero =>
    intro o k acc h1 h2 h3 _ _ _
    omega
  | succ f ih =>
    intro o k acc hok hk hf hdig hnd h47
    have holt : o < length := by omega
    by_cases heq : o = k
    · subst heq
      have hc48 : (decide (getC p o < 48) || decide (57 < getC p o)) = true := by
        rcases (by omega : getC p o < 48 ∨ 57 < getC p o) with h | h <;> simp [h]
      simp only [parse_token, if_pos holt]
      rw [if_neg h47]
      simp only [Bool.true_and]
      rw [if_pos hc48]
    · have hlt : o < k := by omega
      obtain ⟨hcl, hcu⟩ := hdig o (le_refl o) hlt
      have hc47 : getC p o ≠ 47 := by omega
      have hcd : (decide (getC p o < 48) || decide (57 < getC p o)) = false := by
        simp
        omega
      have hc126 : (decide (getC p o = 126) && decide (getC p (o + 1) = 49)) = false := by
        have : getC p o ≠ 126 := by omega
        simp [this]
      have hc126b : (decide (getC p o = 126) && decide (getC p (o + 1) = 48)) = false := by
        have : getC p o ≠ 126 := by omega
        simp [this]
      have hc92 : getC p o ≠ 92 := by omega
      simp only [parse_token, if_pos holt]
      rw [if_neg hc47]
      simp only [Bool.true_and]
      rw [if_neg (by simp [hcd]), if_neg (by simp [hc126]), if_neg (by simp [hc126b]),
        if_neg (by simp [hc92])]
      exact ih (o + 1) k (acc ++ [getC p o]) (by omega) hk (by omega)
        (fun j hj1 hj2 => hdig j (by omega) hj2) hnd h47

/-- Witness for C1 (amended): the failing lookup `/5` on `[10,20,30]`. -/
theorem c1_scalars_restored_on_false_witness :
    (move_to pjArr [47, 53] 2 itArr).1 = PResult.ok false
    ∧ ((move_to pjArr [47, 53] 2 itArr).2.depth = itArr.depth
      ∧ (move_to pjArr [47, 53] 2 itArr).2.location = itArr.location
      ∧ (move_to pjArr [47, 53] 2 itArr).2.tape_length = itArr.tape_length
      ∧ (move_to pjArr [47, 53] 2 itArr).2.current_type = itArr.current_type
      ∧ (move_to pjArr [47, 53] 2 itArr).2.current_val = itArr.current_val) :=
  ⟨by decide, c1_scalars_restored_on_false pjArr [47, 53] 2 itArr (by decide)⟩

/-- Claim C8, counterexample: on the empty array `[]` the token `-` does NOT
advance to a last element and return true - `down()` fails on the empty scope
and the call returns false, contradicting the unconditional claim. -/
theorem c8_dash_empty_array :
    isArray itEmptyArr = true
    ∧ relative_move_to pjEmptyArr [47, 45] 2 itEmptyArr
      = (PResult.ok false, itEmptyArr) := by
  decide

/-- Claim C8 as amended, in an array context: (1) any token containing a
non-digit character - other than the whole-pointer token `-` - makes the call
return false (formalised: if some position k before the terminating slash
holds a non-digit, all positions before k holding digits, and the pointer is
not exactly the two bytes slash-dash, the result is false); (2) on the non-empty
array `[10,20,30]` the final token `-` returns true with the iterator on the
last element (tape slot 6); (3) on the empty array `[]` the token `-` returns
false; (4) `-` followed by a further token returns false. -/
theorem c8_array_token_rules :
    (∀ (pj : ParsedJson) (p : List Nat) (length : Nat) (it : Iter) (k : Nat),
      isArray it = true → getC p 0 = 47 → 1 ≤ k → k < length →
      (∀ j, 1 ≤ j → j < k → 48 ≤ getC p j ∧ getC p j ≤ 57) →
      ¬(48 ≤ getC p k ∧ getC p k ≤ 57) → getC p k ≠ 47 →
      ¬(getC p 1 = 45 ∧ length = 2) →
      (relative_move_to pj p length it).1 = PResult.ok false)
    ∧ (relative_move_to pjArr [47, 45] 2 itArr).1 = PResult.ok true
    ∧ (relative_move_to pjArr [47, 45] 2 itArr).2.location = 6
    ∧ (relative_move_to pjEmptyArr [47, 45] 2 itEmptyArr).1 = PResult.ok false
    ∧ (relative_move_to pjArr [47, 45, 47, 48] 4 itArr).1 = PResult.ok false := by
  refine ⟨?_, by decide, by decide, by decide, by decide⟩
  intro pj p length it k hA h0 hk1 hklen hdig hnd h47 hnp
  have hlen0 : ¬(length = 0) := by omega
  have h0n : ¬(getC p 0 ≠ 47) := by simp [h0]
  show (rmtFuel pj (length + 1) p length it).1 = PResult.ok false
  simp only [rmtFuel]
  rw [if_neg hlen0, if_neg h0n]
  by_cases h45 : getC p 1 = 45
  · have hcond : (isArray it && decide (getC p 1 = 45)) = true := by simp [hA, h45]
    rw [if_pos hcond]
    have hlen2 : length ≠ 2 := fun hl => hnp ⟨h45, hl⟩
    rw [if_pos hlen2]
  · have hcond : (isArray it && decide (getC p 1 = 45)) = false := by simp [h45]
    rw [if_neg (by simp [hcond, h45])]
    have hpt : parse_token (isArray it) p length (length + 1) 1 [] = none := by
      rw [hA]
      exact parse_token_arr_nondigit p length (length + 1) 1 k [] hk1 hklen
        (by omega) (fun j hj1 hj2 => hdig j hj1 hj2) hnd h47
    rw [hpt]

/-- Claim C7: the token scan of `relative_move_to` agrees with the decoding
rules as the spec states them.  For a token `t` (the raw bytes between the
opening slash and the next slash), the scan starting after the opening slash
produces exactly `decodeTokenSpec t` - decoding `~1` to `/`, `~0` to `~`, and
the escapes backslash-backslash, backslash-quote, backslash-x (x at most
0x1F) to their second byte - and fails (whence the lookup returns false) iff
the spec-level decoding rejects the token (any other escaped sequence).
Stated in object context (`arr = false`) at an arbitrary scan position given
by the prefix `p1`. -/
theorem c7_token_decode (p2 : List Nat) (length : Nat) :
    ∀ (f : Nat) (t p1 acc : List Nat),
      47 ∉ t → p1.length + t.length < length → t.length < f →
      parse_token false (p1 ++ (t ++ 47 :: p2)) length f p1.length acc
        = (decodeTokenSpec t).map (fun d => (acc ++ d, p1.length + t.length)) := by
  intro f
  induction f with
  | zero =>
    intro t p1 acc _ _ h3
    omega
  | succ f ih =>
    intro t p1 acc hns hlen hf
    have hoff : p1.length < length := by omega
    cases t with
    | nil =>
      have hc : getC (p1 ++ (([] : List Nat) ++ 47 :: p2)) p1.length = 47 := by
        simpa [getC] using getC_append p1 (([] : List Nat) ++ 47 :: p2) 0
      simp only [parse_token, if_pos hoff, hc, if_pos rfl]
      simp [decodeTokenSpec]
    | cons c t2 =>
      have hc : getC (p1 ++ ((c :: t2) ++ 47 :: p2)) p1.length = c := by
        simpa [getC] using getC_append p1 ((c :: t2) ++ 47 :: p2) 0
      have hc47 : ¬(c = 47) := by
        intro h
        exact hns (by simp [h])
      have hns2 : 47 ∉ t2 := fun h => hns (List.mem_cons_of_mem c h)
      have hla : getC (p1 ++ ((c :: t2) ++ 47 :: p2)) (p1.length + 1)
          = getC (t2 ++ 47 :: p2) 0 := by
        simpa [getC] using getC_append p1 ((c :: t2) ++ 47 :: p2) 1
      simp only [parse_token, if_pos hoff, hc, hla]
      rw [if_neg hc47]
      simp only [Bool.false_and, Bool.false_eq_true, if_false]
      cases t2 with
      | nil =>
        have hla0 : getC (([] : List Nat) ++ 47 :: p2) 0 = 47 := rfl
        rw [hla0]
        by_cases h126 : c = 126
        · subst h126
          rw [if_neg (by decide : ¬((decide ((126:Nat) = 126) && decide ((47:Nat) = 49)) = true))]
          rw [if_neg (by decide : ¬((decide ((126:Nat) = 126) && decide ((47:Nat) = 48)) = true))]
          rw [if_neg (by decide : ¬((126:Nat) = 92))]
          have hP : p1 ++ ((126 :: ([] : List Nat)) ++ 47 :: p2)
              = (p1 ++ [126]) ++ (([] : List Nat) ++ 47 :: p2) := by simp
          have hLn : p1.length + 1 = (p1 ++ [126]).length := by simp
          rw [hP, hLn, ih [] (p1 ++ [126]) (acc ++ [126]) (by simp)
            (by simp only [List.length_append, List.length_cons, List.length_nil] at hlen ⊢; omega) (by simp only [List.length_cons, List.length_nil] at hf ⊢; omega)]
          simp [decodeTokenSpec]
        · by_cases h92 : c = 92
          · subst h92
            rw [if_neg (by decide : ¬((decide ((92:Nat) = 126) && decide ((47:Nat) = 49)) = true))]
            rw [if_neg (by decide : ¬((decide ((92:Nat) = 126) && decide ((47:Nat) = 48)) = true))]
            rw [if_pos (rfl : (92:Nat) = 92)]
            rw [if_neg (by decide : ¬((decide ((47:Nat) = 92) || decide ((47:Nat) = 34) || decide ((47:Nat) ≤ 31)) = true))]
            simp [decodeTokenSpec]
          · rw [if_neg (by simp [h126] : ¬((decide (c = 126) && decide ((47:Nat) = 49)) = true))]
            rw [if_neg (by simp [h126] : ¬((decide (c = 126) && decide ((47:Nat) = 48)) = true))]
            rw [if_neg h92]
            have hP : p1 ++ ((c :: ([] : List Nat)) ++ 47 :: p2)
                = (p1 ++ [c]) ++ (([] : List Nat) ++ 47 :: p2) := by simp
            have hLn : p1.length + 1 = (p1 ++ [c]).length := by simp
            rw [hP, hLn, ih [] (p1 ++ [c]) (acc ++ [c]) (by simp)
              (by simp only [List.length_append, List.length_cons, List.length_nil] at hlen ⊢; omega) (by simp only [List.length_cons, List.length_nil] at hf ⊢; omega)]
            simp [decodeTokenSpec, h126, h92]
      | cons d t3 =>
        have hla0 : getC ((d :: t3) ++ 47 :: p2) 0 = d := rfl
        rw [hla0]
        have hns3 : 47 ∉ t3 := fun h => hns2 (List.mem_cons_of_mem d h)
        by_cases h126 : c = 126
        · subst h126
          by_cases h49 : d = 49
          · subst h49
            rw [if_pos (by decide : (decide ((126:Nat) = 126) && decide ((49:Nat) = 49)) = true)]
            have hP : p1 ++ ((126 :: 49 :: t3) ++ 47 :: p2)
                = (p1 ++ [126, 49]) ++ (t3 ++ 47 :: p2) := by simp
            have hLn : p1.length + 2 = (p1 ++ [126, 49]).length := by simp
            rw [hP]
            rw [show p1.length + 1 + 1 = (p1 ++ [126, 49]).length by simp]
            rw [ih t3 (p1 ++ [126, 49]) (acc ++ [47]) hns3
              (by simp only [List.length_append, List.length_cons, List.length_nil] at hlen ⊢; omega) (by simp only [List.length_cons, List.length_nil] at hf ⊢; omega)]
            cases hdec : decodeTokenSpec t3 <;> simp [decodeTokenSpec, hdec] <;> omega
          · by_cases h48 : d = 48
            · subst h48
              rw [if_neg (by decide : ¬((decide ((126:Nat) = 126) && decide ((48:Nat) = 49)) = true))]
              rw [if_pos (by decide : (decide ((126:Nat) = 126) && decide ((48:Nat) = 48)) = true)]
              have hP : p1 ++ ((126 :: 48 :: t3) ++ 47 :: p2)
                  = (p1 ++ [126, 48]) ++ (t3 ++ 47 :: p2) := by simp
              rw [hP]
              rw [show p1.length + 1 + 1 = (p1 ++ [126, 48]).length by simp]
              rw [ih t3 (p1 ++ [126, 48]) (acc ++ [126]) hns3
                (by simp only [List.length_append, List.length_cons, List.length_nil] at hlen ⊢; omega) (by simp only [List.length_cons, List.length_nil] at hf ⊢; omega)]
              cases hdec : decodeTokenSpec t3 <;> simp [decodeTokenSpec, hdec] <;> omega
            · rw [if_neg (by simp [h49] : ¬((decide ((126:Nat) = 126) && decide (d = 49)) = true))]
              rw [if_neg (by simp [h48] : ¬((decide ((126:Nat) = 126) && decide (d = 48)) = true))]
              rw [if_neg (by decide : ¬((126:Nat) = 92))]
              have hP : p1 ++ ((126 :: d :: t3) ++ 47 :: p2)
                  = (p1 ++ [126]) ++ ((d :: t3) ++ 47 :: p2) := by simp
              have hLn : p1.length + 1 = (p1 ++ [126]).length := by simp
              rw [hP, hLn, ih (d :: t3) (p1 ++ [126]) (acc ++ [126]) hns2
                (by simp only [List.length_append, List.length_cons, List.length_nil] at hlen ⊢; omega) (by simp only [List.length_cons, List.length_nil] at hf ⊢; omega)]
              cases hdec : decodeTokenSpec (d :: t3) <;>
                simp [decodeTokenSpec, hdec, h49, h48] <;> omega
        · by_cases h92 : c = 92
          · subst h92
            rw [if_neg (by simp : ¬((decide ((92:Nat) = 126) && decide (d = 49)) = true))]
            rw [if_neg (by simp : ¬((decide ((92:Nat) = 126) && decide (d = 48)) = true))]
            rw [if_pos (rfl : (92:Nat) = 92)]
            by_cases hall : d = 92 ∨ d = 34 ∨ d ≤ 31
            · have hcond : (decide (d = 92) || decide (d = 34) || decide (d ≤ 31)) = true := by
                rcases hall with h | h | h <;> simp [h]
              rw [if_pos hcond]
              have hP : p1 ++ ((92 :: d :: t3) ++ 47 :: p2)
                  = (p1 ++ [92, d]) ++ (t3 ++ 47 :: p2) := by simp
              rw [hP]
              rw [show p1.length + 1 + 1 = (p1 ++ [92, d]).length by simp]
              rw [ih t3 (p1 ++ [92, d]) (acc ++ [d]) hns3 (by simp only [List.length_append, List.length_cons, List.length_nil] at hlen ⊢; omega) (by simp only [List.length_cons, List.length_nil] at hf ⊢; omega)]
              cases hdec : decodeTokenSpec t3 <;> simp [decodeTokenSpec, hdec, hall] <;> omega
            · have hcond : (decide (d = 92) || decide (d = 34) || decide (d ≤ 31)) = false := by
                push_neg at hall
                simp [hall.1, hall.2.1]
                omega
              rw [if_neg (by simp [hcond])]
              simp [decodeTokenSpec, hall]
          · rw [if_neg (by simp [h126] : ¬((decide (c = 126) && decide (d = 49)) = true))]
            rw [if_neg (by simp [h126] : ¬((decide (c = 126) && decide (d = 48)) = true))]
            rw [if_neg h92]
            have hP : p1 ++ ((c :: d :: t3) ++ 47 :: p2)
                = (p1 ++ [c]) ++ ((d :: t3) ++ 47 :: p2) := by simp
            have hLn : p1.length + 1 = (p1 ++ [c]).length := by simp
            rw [hP, hLn, ih (d :: t3) (p1 ++ [c]) (acc ++ [c]) hns2
              (by simp only [List.length_append, List.length_cons, List.length_nil] at hlen ⊢; omega) (by simp only [List.length_cons, List.length_nil] at hf ⊢; omega)]
            cases hdec : decodeTokenSpec (d :: t3) <;>
              simp [decodeTokenSpec, hdec, h126, h92] <;> omega

/-- Witness for C7: the token `~1\x02x` (bytes 126, 49, 92, 2, 120) decodes
to `/`, byte 2, `x` and the scan stops at the terminating slash (offset 5). -/
theorem c7_token_decode_witness :
    parse_token false (([] : List Nat) ++ ([126, 49, 92, 2, 120] ++ 47 :: ([] : List Nat)))
        7 6 (List.length ([] : List Nat)) [] = some ([47, 2, 120], 5) := by
  have h := c7_token_decode ([] : List Nat) 7 6 [126, 49, 92, 2, 120] [] []
    (by decide) (by decide) (by decide)
  rw [h]
  decide

theorem hexVal_lower (c h : Nat) (hh : hexVal c = some h) : 48 ≤ c := by
  unfold hexVal at hh
  split_ifs at hh <;> omega

theorem dropWhile_two_not_space (c1 c2 : Nat) (hsp : isSpaceC c1 = false) :
    List.dropWhile isSpaceC [c1, c2] = c1 :: [c2] := by
  rw [List.dropWhile_cons, hsp]
  simp

/-- Claim C9, counterexample: the percent pair `2g` is not a pair of hex
digits (103 = `g` is not a hex digit), yet on `{"x\u0002y":7}` the fragment
pointer `#/x%2gy` does not make `move_to` return false: `std::stoi` parses
the leading `2`, the pair decodes to byte 2 (escaped, as 2 ≤ 0x1F), and the
lookup succeeds. -/
theorem c9_invalid_pair_accepted :
    hexVal 103 = none
    ∧ getC [35, 47, 120, 37, 50, 103, 121] 3 = 37
    ∧ (move_to pjXY [35, 47, 120, 37, 50, 103, 121] 7 itXY).1 = PResult.ok true := by
  decide

/-- Claim C9 as amended: in the fragment form, a `%HH` pair made of two hex
digits decodes to the byte HH (with the backslash prepended for backslash,
quote or bytes at most 0x1F, unchanged from the claim); but rejection happens
only when `std::stoi` can parse no digit at all: (1) two hex digits give the
two-digit value; (2) a hex first character followed by a non-hex character
still succeeds, giving that single digit's value; (3) only a first character
that is not a hex digit, not whitespace and not a sign makes the pair parse
fail, and (4) a failed fragment conversion makes `move_to` return false with
the iterator untouched. -/
theorem c9_fragment_decode_rules :
    (∀ c1 c2 h1 h2, hexVal c1 = some h1 → hexVal c2 = some h2 →
      stoi16_two c1 c2 = some ((16 * h1 + h2 : Nat) : Int))
    ∧ (∀ c1 c2 h1, hexVal c1 = some h1 → hexVal c2 = none →
      stoi16_two c1 c2 = some ((h1 : Nat) : Int))
    ∧ (∀ c1 c2, hexVal c1 = none → isSpaceC c1 = false → c1 ≠ 43 → c1 ≠ 45 →
      stoi16_two c1 c2 = none)
    ∧ (∀ (pj : ParsedJson) (p : List Nat) (length : Nat) (it : Iter),
      getC p 0 = 35 → fragment_convert p length = none →
      move_to pj p length it = (PResult.ok false, it)) := by
  have hdefault : ∀ c1 c2 : Nat, isSpaceC c1 = false → c1 ≠ 43 → c1 ≠ 45 →
      stoi16_two c1 c2
        = (if (takeHex 0 false [c1, c2]).2 then some ((takeHex 0 false [c1, c2]).1 : Int)
           else none) := by
    intro c1 c2 hsp h43 h45
    unfold stoi16_two stoiHex
    rw [dropWhile_two_not_space c1 c2 hsp]
    simp only [if_neg h43, if_neg h45]
  have hnotsp : ∀ c h : Nat, hexVal c = some h → isSpaceC c = false := by
    intro c h hh
    have := hexVal_lower c h hh
    unfold isSpaceC
    simp
    omega
  have hne : ∀ c h : Nat, hexVal c = some h → c ≠ 43 ∧ c ≠ 45 := by
    intro c h hh
    have := hexVal_lower c h hh
    omega
  refine ⟨?_, ?_, ?_, ?_⟩
  · intro c1 c2 h1 h2 hh1 hh2
    rw [hdefault c1 c2 (hnotsp c1 h1 hh1) (hne c1 h1 hh1).1 (hne c1 h1 hh1).2]
    simp only [takeHex, hh1, hh2]
    norm_num
  · intro c1 c2 h1 hh1 hh2
    rw [hdefault c1 c2 (hnotsp c1 h1 hh1) (hne c1 h1 hh1).1 (hne c1 h1 hh1).2]
    simp only [takeHex, hh1, hh2]
    norm_num
  · intro c1 c2 hh1 hsp h43 h45
    rw [hdefault c1 c2 hsp h43 h45]
    simp only [takeHex, hh1]
    norm_num
  · intro pj p length it h35 hfrag
    unfold move_to
    rw [if_pos h35, hfrag]

/-- Witness for C9 (amended): pair `2a` gives 42; pair `2g` gives 2; pair
starting with `x` fails; the fragment pointer `#%x5` makes `move_to` return
false with the iterator untouched. -/
theorem c9_fragment_decode_rules_witness :
    stoi16_two 50 97 = some 42
    ∧ stoi16_two 50 103 = some 2
    ∧ stoi16_two 120 53 = none
    ∧ move_to pjXY [35, 37, 120, 53] 4 itXY = (PResult.ok false, itXY) :=
  ⟨by have h := c9_fragment_decode_rules.1 50 97 2 10 (by decide) (by decide)
      simpa using h,
   by have h := c9_fragment_decode_rules.2.1 50 103 2 (by decide) (by decide)
      simpa using h,
   c9_fragment_decode_rules.2.2.1 120 53 (by decide) (by decide) (by decide) (by decide),
   c9_fragment_decode_rules.2.2.2 pjXY [35, 37, 120, 53] 4 itXY (by decide) (by decide)⟩

/-- Witness for C8 (amended), universal part: the token `x` (non-digit) in the
array context of `[10,20,30]` makes the call return false. -/
theorem c8_array_token_rules_witness :
    (relative_move_to pjArr [47, 120] 2 itArr).1 = PResult.ok false :=
  c8_array_token_rules.1 pjArr [47, 120] 2 itArr 1 (by decide) (by decide)
    (by decide) (by decide) (fun j hj1 hj2 => absurd (Nat.lt_of_le_of_lt hj1 hj2) (by decide))
    (by decide) (by decide) (by decide)

end Simdjson
